import Mathlib

/-!
# Verification of the fraud-network widget's graph derivation

Shallow embedding of `src/d3_graph.tsx`: the pure graph builder
`buildGraphData`, the node sizing/coloring functions `nodeRadius` and
`nodeColor`, the click dispatcher `handleNodeClick`, and the empty-input
guards of the view.  JavaScript's insertion-ordered `Map` (last-write-wins
`set`) is modelled as an association list, and `Set` as an
insertion-ordered duplicate-free list.  Numbers stored on records are
rationals; the radius computation (which takes a square root) lives in `ℝ`,
with `Option ℝ` standing for a JS number that may be `NaN` (`none` = NaN).
-/

set_option autoImplicit false

namespace FraudNetwork

/-- The properties bag of an `InsuranceClaim` record as the widget reads it:
`claimId`, `claimAmount`, `anomalyScore`, `status`, `policyholderId`.
`claimAmount` and `anomalyScore` are optional numeric fields. -/
structure ClaimProperties where
  claimId : String
  claimAmount : Option ℚ
  anomalyScore : Option ℚ
  status : String
  policyholderId : String
  deriving DecidableEq, Repr

/-- One element of the host-supplied `claims.objects` list. -/
structure ClaimRecord where
  primaryKey : String
  properties : ClaimProperties
  deriving DecidableEq, Repr

/-- The three node kinds of the `ClaimNode` interface's `type` field. -/
inductive NodeType where
  | claim
  | policyholder
  | agent
  deriving DecidableEq, Repr

/-- The `ClaimNode` interface (minus the simulation-owned `x`/`y`/`vx`/`vy`
fields, which the builder never sets). Optional fields default to absent. -/
structure ClaimNode where
  id : String
  type : NodeType
  primaryKey : String
  claimId : Option String := none
  claimAmount : Option ℚ := none
  anomalyScore : Option ℚ := none
  status : Option String := none
  policyholderId : Option String := none
  policyholderName : Option String := none
  riskProfile : Option String := none
  agentId : Option String := none
  agentName : Option String := none
  deriving DecidableEq, Repr

/-- The `Link` interface: `source`/`target` node identifiers plus an edge kind. -/
inductive LinkType where
  | claimPolicyholder
  | policyholderAgent
  deriving DecidableEq, Repr

/-- An edge of the derived graph. -/
structure Link where
  source : String
  target : String
  type : LinkType
  deriving DecidableEq, Repr

/-- A JS `Map<string, ClaimNode>` in insertion order. -/
abbrev NodeMap := List (String × ClaimNode)

/-- `Map.prototype.has`. -/
def mapHas (m : NodeMap) (k : String) : Bool :=
  m.any (fun p => p.1 == k)

/-- `Map.prototype.set`: replace in place when the key exists (keeping the
original insertion position), append otherwise. -/
def mapSet (m : NodeMap) (k : String) (v : ClaimNode) : NodeMap :=
  if mapHas m k then m.map (fun p => if p.1 == k then (k, v) else p)
  else m ++ [(k, v)]

/-- Adding one element to a JS `Set` (insertion-ordered, first occurrence wins). -/
def jsSetAdd {α : Type} [DecidableEq α] (s : List α) (x : α) : List α :=
  if x ∈ s then s else s ++ [x]

/-- `new Set(xs)` as an insertion-ordered duplicate-free list. -/
def jsSet {α : Type} [DecidableEq α] (xs : List α) : List α :=
  xs.foldl jsSetAdd []

/-- The claim node built at step 1 of `buildGraphData` for one record
(lines 49–58 of `src/d3_graph.tsx`). -/
def claimNodeOf (c : ClaimRecord) : ClaimNode :=
  { id := "claim-" ++ c.primaryKey
    type := .claim
    primaryKey := c.primaryKey
    claimId := some c.properties.claimId
    claimAmount := c.properties.claimAmount
    anomalyScore := c.properties.anomalyScore
    status := some c.properties.status
    policyholderId := some c.properties.policyholderId }

/-- Step 1: add all (capped) claims as nodes, keyed `"claim-" ++ primaryKey`. -/
def step1 (capped : List ClaimRecord) : NodeMap :=
  capped.foldl (fun m c => mapSet m ("claim-" ++ c.primaryKey) (claimNodeOf c)) []

/-- The policyholder node built at step 2 for id `phId` with witness record
`sample` (lines 69–76): the display name echoes the record's
`policyholderId` and the risk profile is the fixed string `"High Risk"`. -/
def phNodeOf (phId : String) (sample : ClaimRecord) : ClaimNode :=
  { id := "ph-" ++ phId
    type := .policyholder
    primaryKey := phId
    policyholderId := some phId
    policyholderName := some sample.properties.policyholderId
    riskProfile := some "High Risk" }

/-- Step 2: one policyholder node per id in `phIds`, guarded by
`claims.objects.find(...)` (over the *uncapped* list) and `!nodeMap.has(...)`. -/
def step2 (objects : List ClaimRecord) (phIds : List String) (m : NodeMap) : NodeMap :=
  phIds.foldl (fun m phId =>
    match objects.find? (fun c => c.properties.policyholderId == phId) with
    | some sample =>
        if mapHas m ("ph-" ++ phId) then m
        else mapSet m ("ph-" ++ phId) (phNodeOf phId sample)
    | none => m) m

/-- The agent node built at step 3 for one hardcoded id (lines 89–95). -/
def agentNodeOf (agentId : String) : ClaimNode :=
  { id := "agent-" ++ agentId
    type := .agent
    primaryKey := agentId
    agentId := some agentId
    agentName := some agentId }

/-- Step 3: the fixed, hardcoded agent list `AGENT_0`, `AGENT_1`, `AGENT_2`.
(The `agentIds` set computed at lines 81–84 of the source is dead code —
written and never read — so it is not modelled.) -/
def step3 (m : NodeMap) : NodeMap :=
  ["AGENT_0", "AGENT_1", "AGENT_2"].foldl (fun m agentId =>
    if mapHas m ("agent-" ++ agentId) then m
    else mapSet m ("agent-" ++ agentId) (agentNodeOf agentId)) m

/-- The edge pushed at step 4 for one record (lines 105–109). -/
def linkOf (c : ClaimRecord) : Link :=
  { source := "claim-" ++ c.primaryKey
    target := "ph-" ++ c.properties.policyholderId
    type := .claimPolicyholder }

/-- Step 4: one `claim-policyholder` edge per capped record whose two
endpoint keys are both present in the node map. -/
def step4 (m : NodeMap) (capped : List ClaimRecord) : List Link :=
  capped.foldl (fun ls c =>
    if mapHas m ("claim-" ++ c.primaryKey) && mapHas m ("ph-" ++ c.properties.policyholderId)
    then ls ++ [linkOf c]
    else ls) []

/-- `buildGraphData` (lines 41–117): `claims = none` models an absent
parameter (`claims?.objects` undefined); the `!claims?.objects?.length`
guard returns the empty graph, and otherwise the four steps run over the
records capped at 200 (`slice(0, 200)`). -/
def buildGraphData (claims : Option (List ClaimRecord)) : List ClaimNode × List Link :=
  match claims with
  | none => ([], [])
  | some objects =>
      if objects.isEmpty then ([], [])
      else
        let capped := objects.take 200
        let m1 := step1 capped
        let phIds := jsSet (capped.map (fun c => c.properties.policyholderId))
        let m3 := step3 (step2 objects phIds m1)
        (m3.map Prod.snd, step4 m3 capped)

/-- `Math.sqrt` on a JS number: `NaN` (modelled `none`) on negative input. -/
noncomputable def jsSqrt (x : ℝ) : Option ℝ :=
  if x < 0 then none else some (Real.sqrt x)

/-- `nodeRadius` (lines 206–210): claim nodes get
`Math.sqrt((claimAmount || 0) / 5000) * 4 + 3`; policyholders 8; agents 12. -/
noncomputable def nodeRadius (d : ClaimNode) : Option ℝ :=
  match d.type with
  | .claim => (jsSqrt (((d.claimAmount.getD 0 : ℚ) : ℝ) / 5000)).map (fun r => r * 4 + 3)
  | .policyholder => some 8
  | .agent => some 12

/-- `nodeColor` (lines 212–221): three-bucket anomaly threshold for claim
nodes (`score || 0`), risk-label test for policyholders, fixed agent color. -/
def nodeColor (d : ClaimNode) : String :=
  match d.type with
  | .claim =>
      let score := d.anomalyScore.getD 0
      if score > 70 then "#ff4444"
      else if score > 40 then "#ffaa00"
      else "#88cc88"
  | .policyholder => if d.riskProfile == some "High Risk" then "#ff8800" else "#66bb6a"
  | .agent => "#1976d2"

/-- An outbound host event with its payload. -/
inductive WidgetEvent where
  | flagSuspicious (claimId : String)
  | investigateCluster (agentId : Option String)
  deriving DecidableEq, Repr

/-- `handleNodeClick` (lines 240–246): the booleans say whether the host
wired the corresponding callback (`flagSuspicious` / `investigateCluster`);
the result lists the callback invocations the click produces, in order. -/
def handleNodeClick (flagWired investigateWired : Bool) (d : ClaimNode) : List WidgetEvent :=
  if d.type == .claim && flagWired then [.flagSuspicious d.primaryKey]
  else if d.type == .agent && investigateWired then [.investigateCluster d.agentId]
  else []

/-- The `!claims?.objects?.length` test used by the guards at lines 42, 121
and 280. -/
def claimsEmpty (claims : Option (List ClaimRecord)) : Bool :=
  match claims with
  | none => true
  | some objects => objects.isEmpty

/-- What the component returns (lines 280–311): the static placeholder
`<div>` or the SVG graph surface. -/
inductive ViewState where
  | placeholder
  | graphView
  deriving DecidableEq, Repr

/-- The render branch of `FraudNetworkWidget` (line 280). -/
def renderView (claims : Option (List ClaimRecord)) : ViewState :=
  if claimsEmpty claims then .placeholder else .graphView

/-- Whether the layout effect constructs a force simulation (line 121): it
bails out when the SVG ref is unset or the claim list is empty/absent. -/
def simulationCreated (svgPresent : Bool) (claims : Option (List ClaimRecord)) : Bool :=
  svgPresent && !(claimsEmpty claims)

/-- Number of nodes of one kind in a node list. -/
def countType (nodes : List ClaimNode) (t : NodeType) : Nat :=
  nodes.countP (fun n => n.type == t)

/-- The key list of a node map, in insertion order. -/
def keys (m : NodeMap) : List String :=
  m.map Prod.fst

/-! ## Basic lemmas about the `Map` and `Set` models -/

theorem mapHas_iff_mem {m : NodeMap} {k : String} : mapHas m k = true ↔ k ∈ keys m := by
  simp [mapHas, keys, List.any_eq_true, beq_iff_eq, List.mem_map]

theorem mapSet_of_not_mem {m : NodeMap} {k : String} (h : k ∉ keys m) (v : ClaimNode) :
    mapSet m k v = m ++ [(k, v)] := by
  have hh : ¬ mapHas m k = true := fun hc => h (mapHas_iff_mem.1 hc)
  rw [mapSet, if_neg hh]

theorem keys_mapSet (m : NodeMap) (k : String) (v : ClaimNode) :
    keys (mapSet m k v) = jsSetAdd (keys m) k := by
  by_cases h : mapHas m k
  · have hk : k ∈ keys m := mapHas_iff_mem.1 h
    rw [mapSet, if_pos h, jsSetAdd, if_pos hk]
    show List.map Prod.fst (m.map fun p => if (p.1 == k) = true then (k, v) else p) = keys m
    rw [List.map_map]
    refine List.map_congr_left fun p _ => ?_
    by_cases hp : p.1 = k
    · simp [Function.comp, hp]
    · simp [Function.comp, hp]
  · have hk : k ∉ keys m := fun hc => h (mapHas_iff_mem.2 hc)
    rw [mapSet, if_neg h, jsSetAdd, if_neg hk]
    simp [keys]

theorem mem_mapSet {m : NodeMap} {k : String} {v : ClaimNode} {p : String × ClaimNode}
    (hp : p ∈ mapSet m k v) : p ∈ m ∨ p = (k, v) := by
  by_cases h : mapHas m k
  · rw [mapSet, if_pos h] at hp
    rcases List.mem_map.1 hp with ⟨q, hq, hqe⟩
    by_cases hqk : q.1 = k
    · right
      rw [← hqe]
      simp [hqk]
    · left
      rw [← hqe]
      simpa [hqk] using hq
  · rw [mapSet, if_neg h] at hp
    rcases List.mem_append.1 hp with h1 | h1
    · exact Or.inl h1
    · right
      simpa using h1

theorem mem_jsSetAdd {α : Type} [DecidableEq α] {s : List α} {x y : α} :
    y ∈ jsSetAdd s x ↔ y ∈ s ∨ y = x := by
  unfold jsSetAdd
  by_cases h : x ∈ s
  · simp only [h, if_true]
    constructor
    · exact Or.inl
    · rintro (hy | rfl)
      · exact hy
      · exact h
  · simp [h]

theorem mem_foldl_jsSetAdd {α : Type} [DecidableEq α] (l : List α) (s : List α) (y : α) :
    y ∈ l.foldl jsSetAdd s ↔ y ∈ s ∨ y ∈ l := by
  induction l generalizing s with
  | nil => simp
  | cons a l ih =>
      rw [List.foldl_cons, ih (jsSetAdd s a), mem_jsSetAdd, List.mem_cons]
      tauto

theorem mem_jsSet {α : Type} [DecidableEq α] {l : List α} {y : α} :
    y ∈ jsSet l ↔ y ∈ l := by
  simpa [jsSet] using mem_foldl_jsSetAdd l [] y

theorem nodup_jsSetAdd {α : Type} [DecidableEq α] {s : List α} (h : s.Nodup) (x : α) :
    (jsSetAdd s x).Nodup := by
  unfold jsSetAdd
  by_cases hx : x ∈ s
  · simpa [hx] using h
  · rw [if_neg hx, List.nodup_append]
    refine ⟨h, List.nodup_singleton x, fun a ha hax => ?_⟩
    rw [List.mem_singleton] at hax
    exact hx (hax ▸ ha)

theorem nodup_foldl_jsSetAdd {α : Type} [DecidableEq α] (l : List α) {s : List α}
    (h : s.Nodup) : (l.foldl jsSetAdd s).Nodup := by
  induction l generalizing s with
  | nil => simpa
  | cons a l ih => exact ih (nodup_jsSetAdd h a)

theorem nodup_jsSet {α : Type} [DecidableEq α] (l : List α) : (jsSet l).Nodup :=
  nodup_foldl_jsSetAdd l List.nodup_nil

theorem jsSetAdd_map {α β : Type} [DecidableEq α] [DecidableEq β] {f : α → β}
    (hf : Function.Injective f) (s : List α) (x : α) :
    jsSetAdd (s.map f) (f x) = (jsSetAdd s x).map f := by
  by_cases h : x ∈ s
  · have h2 : f x ∈ s.map f := List.mem_map.2 ⟨x, h, rfl⟩
    simp [jsSetAdd, h, h2]
  · have h2 : f x ∉ s.map f := fun hc => h ((List.mem_map_of_injective hf).1 hc)
    simp [jsSetAdd, h, h2]

theorem foldl_jsSetAdd_map {α β : Type} [DecidableEq α] [DecidableEq β] {f : α → β}
    (hf : Function.Injective f) (l : List α) (s : List α) :
    (l.map f).foldl jsSetAdd (s.map f) = (l.foldl jsSetAdd s).map f := by
  induction l generalizing s with
  | nil => simp
  | cons a l ih =>
      rw [List.map_cons, List.foldl_cons, List.foldl_cons, jsSetAdd_map hf, ih]

theorem jsSet_map {α β : Type} [DecidableEq α] [DecidableEq β] {f : α → β}
    (hf : Function.Injective f) (l : List α) :
    jsSet (l.map f) = (jsSet l).map f := by
  simpa [jsSet] using foldl_jsSetAdd_map hf l []

theorem length_jsSet_eq_card {α : Type} [DecidableEq α] (l : List α) :
    (jsSet l).length = l.toFinset.card := by
  have h1 : (jsSet l).toFinset = l.toFinset := by
    ext x
    simp [List.mem_toFinset, mem_jsSet]
  rw [← h1, List.toFinset_card_of_nodup (nodup_jsSet l)]

/-! ## String-prefix facts about the three key namespaces -/

theorem append_left_inj (pre : String) : Function.Injective (fun s => pre ++ s) := by
  intro a b h
  have h' := congrArg String.data h
  simp only [String.data_append] at h'
  exact String.ext (List.append_cancel_left h')

theorem claimKey_ne_phKey (a b : String) : "claim-" ++ a ≠ "ph-" ++ b := by
  intro h
  have h' := congrArg String.data h
  simp [String.data_append] at h'

theorem claimKey_ne_agentKey (a b : String) : "claim-" ++ a ≠ "agent-" ++ b := by
  intro h
  have h' := congrArg String.data h
  simp [String.data_append] at h'

theorem phKey_ne_agentKey (a b : String) : "ph-" ++ a ≠ "agent-" ++ b := by
  intro h
  have h' := congrArg String.data h
  simp [String.data_append] at h'

/-! ## Characterizing step 1 (claim nodes) -/

theorem keys_foldl_mapSet {α : Type} (key : α → String) (val : α → ClaimNode)
    (l : List α) (m0 : NodeMap) :
    keys (l.foldl (fun m x => mapSet m (key x) (val x)) m0)
      = (l.map key).foldl jsSetAdd (keys m0) := by
  induction l generalizing m0 with
  | nil => rfl
  | cons a l ih =>
      rw [List.foldl_cons, List.map_cons, List.foldl_cons, ih, keys_mapSet]

theorem mem_foldl_mapSet {α : Type} {key : α → String} {val : α → ClaimNode}
    {l : List α} {m0 : NodeMap} {p : String × ClaimNode}
    (hp : p ∈ l.foldl (fun m x => mapSet m (key x) (val x)) m0) :
    p ∈ m0 ∨ ∃ x ∈ l, p = (key x, val x) := by
  induction l generalizing m0 with
  | nil => exact Or.inl hp
  | cons a l ih =>
      rw [List.foldl_cons] at hp
      rcases ih hp with h | ⟨x, hx, rfl⟩
      · rcases mem_mapSet h with h' | h'
        · exact Or.inl h'
        · exact Or.inr ⟨a, List.mem_cons_self a l, h'⟩
      · exact Or.inr ⟨x, List.mem_cons_of_mem a hx, rfl⟩

theorem keys_step1 (capped : List ClaimRecord) :
    keys (step1 capped) = jsSet (capped.map (fun c => "claim-" ++ c.primaryKey)) := by
  rw [step1, keys_foldl_mapSet]
  rfl

theorem mem_step1 {capped : List ClaimRecord} {p : String × ClaimNode}
    (hp : p ∈ step1 capped) : ∃ c ∈ capped, p = ("claim-" ++ c.primaryKey, claimNodeOf c) := by
  rcases mem_foldl_mapSet hp with h | h
  · cases h
  · exact h

theorem length_step1 (capped : List ClaimRecord) :
    (step1 capped).length = (capped.map (fun c => c.primaryKey)).toFinset.card := by
  have h1 : (step1 capped).length = (keys (step1 capped)).length := by
    simp [keys]
  rw [h1, keys_step1]
  have h2 : capped.map (fun c => "claim-" ++ c.primaryKey)
      = (capped.map (fun c => c.primaryKey)).map (fun s => "claim-" ++ s) := by
    rw [List.map_map]
    rfl
  rw [h2, jsSet_map (append_left_inj "claim-"), List.length_map,
    length_jsSet_eq_card]

/-! ## Characterizing step 2 (policyholder nodes) -/

/-- The optional map entry step 2 produces for one policyholder id. -/
def phEntryOf (objects : List ClaimRecord) (phId : String) : Option (String × ClaimNode) :=
  (objects.find? (fun c => c.properties.policyholderId == phId)).map
    (fun sample => ("ph-" ++ phId, phNodeOf phId sample))

theorem step2_eq (objects : List ClaimRecord) :
    ∀ (phIds : List String) (m : NodeMap), phIds.Nodup →
      (∀ phId ∈ phIds, ("ph-" ++ phId) ∉ keys m) →
      step2 objects phIds m = m ++ phIds.filterMap (phEntryOf objects) := by
  intro phIds
  induction phIds with
  | nil => intro m _ _; simp [step2]
  | cons phId rest ih =>
      intro m hnd hfresh
      have hndr : rest.Nodup := (List.nodup_cons.1 hnd).2
      have hniq : phId ∉ rest := (List.nodup_cons.1 hnd).1
      rw [step2, List.foldl_cons]
      rcases hfind : objects.find? (fun c => c.properties.policyholderId == phId) with _ | sample
      · have hstep : (match objects.find? (fun c => c.properties.policyholderId == phId) with
            | some sample =>
                if mapHas m ("ph-" ++ phId) then m
                else mapSet m ("ph-" ++ phId) (phNodeOf phId sample)
            | none => m) = m := by rw [hfind]
        rw [hstep]
        have := ih m hndr (fun q hq => hfresh q (List.mem_cons_of_mem phId hq))
        rw [step2] at this
        rw [this, List.filterMap_cons]
        have : phEntryOf objects phId = none := by
          rw [phEntryOf, hfind]
          rfl
        rw [this]
      · have hnotin : ("ph-" ++ phId) ∉ keys m := hfresh phId (List.mem_cons_self phId rest)
        have hhas : ¬ mapHas m ("ph-" ++ phId) = true := fun hc => hnotin (mapHas_iff_mem.1 hc)
        have hstep0 : (match objects.find? (fun c => c.properties.policyholderId == phId) with
            | some sample =>
                if mapHas m ("ph-" ++ phId) then m
                else mapSet m ("ph-" ++ phId) (phNodeOf phId sample)
            | none => m)
            = if mapHas m ("ph-" ++ phId) = true then m
              else mapSet m ("ph-" ++ phId) (phNodeOf phId sample) := by
          rw [hfind]
        have hstep : (match objects.find? (fun c => c.properties.policyholderId == phId) with
            | some sample =>
                if mapHas m ("ph-" ++ phId) then m
                else mapSet m ("ph-" ++ phId) (phNodeOf phId sample)
            | none => m) = m ++ [("ph-" ++ phId, phNodeOf phId sample)] := by
          rw [hstep0, if_neg hhas, mapSet_of_not_mem hnotin]
        rw [hstep]
        have hfresh' : ∀ q ∈ rest, ("ph-" ++ q) ∉ keys (m ++ [("ph-" ++ phId, phNodeOf phId sample)]) := by
          intro q hq hmem
          have : keys (m ++ [("ph-" ++ phId, phNodeOf phId sample)]) = keys m ++ ["ph-" ++ phId] := by
            simp [keys]
          rw [this, List.mem_append, List.mem_singleton] at hmem
          rcases hmem with hmem | hmem
          · exact hfresh q (List.mem_cons_of_mem phId hq) hmem
          · exact hniq (append_left_inj "ph-" hmem ▸ hq)
        have := ih (m ++ [("ph-" ++ phId, phNodeOf phId sample)]) hndr hfresh'
        rw [step2] at this
        rw [this, List.filterMap_cons]
        have hentry : phEntryOf objects phId = some ("ph-" ++ phId, phNodeOf phId sample) := by
          rw [phEntryOf, hfind]
          rfl
        rw [hentry, List.append_assoc]
        rfl

theorem mem_phEntries {objects : List ClaimRecord} {phIds : List String}
    {p : String × ClaimNode} (hp : p ∈ phIds.filterMap (phEntryOf objects)) :
    ∃ phId sample, objects.find? (fun c => c.properties.policyholderId == phId) = some sample ∧
      p = ("ph-" ++ phId, phNodeOf phId sample) := by
  rcases List.mem_filterMap.1 hp with ⟨phId, _, hsome⟩
  rw [phEntryOf] at hsome
  rcases hfind : objects.find? (fun c => c.properties.policyholderId == phId) with _ | sample
  · rw [hfind] at hsome
    cases hsome
  · rw [hfind] at hsome
    refine ⟨phId, sample, hfind, ?_⟩
    simpa using hsome.symm

theorem filterMap_length_of_isSome {α β : Type} {f : α → Option β} {l : List α}
    (h : ∀ a ∈ l, (f a).isSome) : (l.filterMap f).length = l.length := by
  induction l with
  | nil => rfl
  | cons a l ih =>
      rw [List.filterMap_cons]
      rcases hfa : f a with _ | b
      · exact absurd (hfa ▸ h a (List.mem_cons_self a l)) (by simp)
      · rw [List.length_cons, List.length_cons,
          ih (fun x hx => h x (List.mem_cons_of_mem a hx))]

/-! ## Characterizing step 3 (agent nodes) -/

theorem keys_append (m m' : NodeMap) : keys (m ++ m') = keys m ++ keys m' := by
  simp [keys]

theorem not_mem_keys_append_single {m : NodeMap} {k : String} {p : String × ClaimNode}
    (h1 : k ∉ keys m) (h2 : k ≠ p.1) : k ∉ keys (m ++ [p]) := by
  rw [keys_append]
  intro hmem
  rcases List.mem_append.1 hmem with hmem | hmem
  · exact h1 hmem
  · rw [show keys [p] = [p.1] from rfl, List.mem_singleton] at hmem
    exact h2 hmem

/-- The three hardcoded agent entries appended by step 3. -/
def agentEntries : NodeMap :=
  [("agent-" ++ "AGENT_0", agentNodeOf "AGENT_0"),
   ("agent-" ++ "AGENT_1", agentNodeOf "AGENT_1"),
   ("agent-" ++ "AGENT_2", agentNodeOf "AGENT_2")]

theorem step3_eq {m : NodeMap}
    (h : ∀ aid ∈ (["AGENT_0", "AGENT_1", "AGENT_2"] : List String),
      ("agent-" ++ aid) ∉ keys m) :
    step3 m = m ++ agentEntries := by
  have h0 : ("agent-" ++ "AGENT_0") ∉ keys m := h "AGENT_0" (by simp)
  have h1 : ("agent-" ++ "AGENT_1") ∉ keys m := h "AGENT_1" (by simp)
  have h2 : ("agent-" ++ "AGENT_2") ∉ keys m := h "AGENT_2" (by simp)
  have h1' : ("agent-" ++ "AGENT_1")
      ∉ keys (m ++ [("agent-" ++ "AGENT_0", agentNodeOf "AGENT_0")]) :=
    not_mem_keys_append_single h1
      (fun hc => by simpa using append_left_inj "agent-" hc)
  have h2' : ("agent-" ++ "AGENT_2")
      ∉ keys (m ++ [("agent-" ++ "AGENT_0", agentNodeOf "AGENT_0")]
          ++ [("agent-" ++ "AGENT_1", agentNodeOf "AGENT_1")]) := by
    refine not_mem_keys_append_single (not_mem_keys_append_single h2 ?_) ?_
    · exact fun hc => by simpa using append_left_inj "agent-" hc
    · exact fun hc => by simpa using append_left_inj "agent-" hc
  have hh0 : ¬ mapHas m ("agent-" ++ "AGENT_0") = true :=
    fun hc => h0 (mapHas_iff_mem.1 hc)
  have hh1 : ¬ mapHas (m ++ [("agent-" ++ "AGENT_0", agentNodeOf "AGENT_0")])
      ("agent-" ++ "AGENT_1") = true :=
    fun hc => h1' (mapHas_iff_mem.1 hc)
  have hh2 : ¬ mapHas (m ++ [("agent-" ++ "AGENT_0", agentNodeOf "AGENT_0")]
      ++ [("agent-" ++ "AGENT_1", agentNodeOf "AGENT_1")])
      ("agent-" ++ "AGENT_2") = true :=
    fun hc => h2' (mapHas_iff_mem.1 hc)
  rw [step3]
  simp only [List.foldl_cons, List.foldl_nil]
  rw [if_neg hh0, mapSet_of_not_mem h0, if_neg hh1, mapSet_of_not_mem h1',
    if_neg hh2, mapSet_of_not_mem h2']
  simp [agentEntries]

/-! ## The assembled pipeline -/

/-- The records actually processed: `claims.objects.slice(0, 200)`. -/
def cappedOf (objects : List ClaimRecord) : List ClaimRecord := objects.take 200

/-- The deduplicated policyholder-id list of the capped records. -/
def phIdsOf (objects : List ClaimRecord) : List String :=
  jsSet ((cappedOf objects).map (fun c => c.properties.policyholderId))

/-- The policyholder entries appended by step 2. -/
def phEntriesOf (objects : List ClaimRecord) : NodeMap :=
  (phIdsOf objects).filterMap (phEntryOf objects)

/-- The node map after the three node-building steps. -/
def m3Of (objects : List ClaimRecord) : NodeMap :=
  step3 (step2 objects (phIdsOf objects) (step1 (cappedOf objects)))

theorem mem_keys_step1_form {capped : List ClaimRecord} {k : String}
    (h : k ∈ keys (step1 capped)) : ∃ pk, k = "claim-" ++ pk := by
  rw [keys_step1, mem_jsSet] at h
  rcases List.mem_map.1 h with ⟨c, _, rfl⟩
  exact ⟨c.primaryKey, rfl⟩

theorem m2_decomp (objects : List ClaimRecord) :
    step2 objects (phIdsOf objects) (step1 (cappedOf objects))
      = step1 (cappedOf objects) ++ phEntriesOf objects := by
  rw [phEntriesOf]
  refine step2_eq objects (phIdsOf objects) (step1 (cappedOf objects))
    (nodup_jsSet _) ?_
  intro phId _ hmem
  rcases mem_keys_step1_form hmem with ⟨pk, hpk⟩
  exact claimKey_ne_phKey pk phId hpk.symm

theorem mem_keys_phEntries_form {objects : List ClaimRecord} {k : String}
    (h : k ∈ keys (phEntriesOf objects)) : ∃ phId, k = "ph-" ++ phId := by
  rcases List.mem_map.1 h with ⟨p, hp, rfl⟩
  rcases mem_phEntries hp with ⟨phId, sample, _, rfl⟩
  exact ⟨phId, rfl⟩

theorem m3_decomp (objects : List ClaimRecord) :
    m3Of objects = step1 (cappedOf objects) ++ phEntriesOf objects ++ agentEntries := by
  rw [m3Of, m2_decomp]
  refine step3_eq ?_
  intro aid _ hmem
  rw [keys_append] at hmem
  rcases List.mem_append.1 hmem with hmem | hmem
  · rcases mem_keys_step1_form hmem with ⟨pk, hpk⟩
    exact claimKey_ne_agentKey pk aid hpk.symm
  · rcases mem_keys_phEntries_form hmem with ⟨phId, hph⟩
    exact phKey_ne_agentKey phId aid hph.symm

theorem buildGraphData_some {objects : List ClaimRecord} (h : objects ≠ []) :
    buildGraphData (some objects)
      = ((m3Of objects).map Prod.snd, step4 (m3Of objects) (cappedOf objects)) := by
  cases objects with
  | nil => exact absurd rfl h
  | cons a l => rfl

/-! ## Entry types and counting -/

theorem step1_entry_type {capped : List ClaimRecord} {p : String × ClaimNode}
    (hp : p ∈ step1 capped) : p.2.type = NodeType.claim := by
  rcases mem_step1 hp with ⟨c, _, rfl⟩
  rfl

theorem phEntries_entry_type {objects : List ClaimRecord} {p : String × ClaimNode}
    (hp : p ∈ phEntriesOf objects) : p.2.type = NodeType.policyholder := by
  rcases mem_phEntries hp with ⟨phId, sample, _, rfl⟩
  rfl

theorem agentEntries_entry_type {p : String × ClaimNode}
    (hp : p ∈ agentEntries) : p.2.type = NodeType.agent := by
  simp only [agentEntries, List.mem_cons, List.mem_singleton] at hp
  rcases hp with rfl | rfl | rfl | h
  · rfl
  · rfl
  · rfl
  · cases h

theorem countType_map_snd (m : NodeMap) (t : NodeType) :
    countType (m.map Prod.snd) t = m.countP (fun p => p.2.type == t) := by
  rw [countType, List.countP_map]
  rfl

theorem countP_eq_length_of_all {α : Type} {p : α → Bool} {l : List α}
    (h : ∀ a ∈ l, p a = true) : l.countP p = l.length :=
  List.countP_eq_length.2 h

theorem countP_eq_zero_of_none {α : Type} {p : α → Bool} {l : List α}
    (h : ∀ a ∈ l, ¬ p a = true) : l.countP p = 0 :=
  List.countP_eq_zero.2 h

theorem nodes_decomp {objects : List ClaimRecord} (h : objects ≠ []) :
    (buildGraphData (some objects)).1
      = (step1 (cappedOf objects) ++ phEntriesOf objects ++ agentEntries).map Prod.snd := by
  rw [buildGraphData_some h, m3_decomp]

theorem countType_nodes {objects : List ClaimRecord} (h : objects ≠ []) (t : NodeType) :
    countType (buildGraphData (some objects)).1 t
      = (step1 (cappedOf objects)).countP (fun p => p.2.type == t)
        + (phEntriesOf objects).countP (fun p => p.2.type == t)
        + agentEntries.countP (fun p => p.2.type == t) := by
  rw [nodes_decomp h, countType_map_snd, List.countP_append, List.countP_append]

/-! ## Success of the `find?` and endpoint lookups -/

theorem find?_phId_succeeds {objects : List ClaimRecord} {phId : String}
    (h : phId ∈ phIdsOf objects) :
    ∃ sample, objects.find? (fun c => c.properties.policyholderId == phId) = some sample ∧
      sample.properties.policyholderId = phId := by
  rw [phIdsOf, mem_jsSet] at h
  rcases List.mem_map.1 h with ⟨c, hc, rfl⟩
  have hobj : c ∈ objects := List.take_subset 200 objects hc
  have hsome : (objects.find?
      (fun c' => c'.properties.policyholderId == c.properties.policyholderId)).isSome :=
    List.find?_isSome.2 ⟨c, hobj, by simp⟩
  rcases Option.isSome_iff_exists.1 hsome with ⟨sample, hs⟩
  exact ⟨sample, hs, by simpa using List.find?_some hs⟩

theorem length_phEntriesOf (objects : List ClaimRecord) :
    (phEntriesOf objects).length = (phIdsOf objects).length := by
  refine filterMap_length_of_isSome ?_
  intro phId hph
  rcases find?_phId_succeeds hph with ⟨sample, hs, _⟩
  rw [phEntryOf, hs]
  rfl

theorem mapHas_m3_claimKey {objects : List ClaimRecord} {c : ClaimRecord}
    (hc : c ∈ cappedOf objects) :
    mapHas (m3Of objects) ("claim-" ++ c.primaryKey) = true := by
  refine mapHas_iff_mem.2 ?_
  rw [m3_decomp, keys_append, keys_append]
  refine List.mem_append.2 (Or.inl (List.mem_append.2 (Or.inl ?_)))
  rw [keys_step1, mem_jsSet]
  exact List.mem_map.2 ⟨c, hc, rfl⟩

theorem mapHas_m3_phKey {objects : List ClaimRecord} {c : ClaimRecord}
    (hc : c ∈ cappedOf objects) :
    mapHas (m3Of objects) ("ph-" ++ c.properties.policyholderId) = true := by
  have hph : c.properties.policyholderId ∈ phIdsOf objects := by
    rw [phIdsOf, mem_jsSet]
    exact List.mem_map.2 ⟨c, hc, rfl⟩
  rcases find?_phId_succeeds hph with ⟨sample, hs, _⟩
  refine mapHas_iff_mem.2 ?_
  rw [m3_decomp, keys_append, keys_append]
  refine List.mem_append.2 (Or.inl (List.mem_append.2 (Or.inr ?_)))
  refine List.mem_map.2 ⟨("ph-" ++ c.properties.policyholderId,
    phNodeOf c.properties.policyholderId sample), ?_, rfl⟩
  refine List.mem_filterMap.2 ⟨c.properties.policyholderId, hph, ?_⟩
  rw [phEntryOf, hs]
  rfl

/-! ## Characterizing step 4 (edges) -/

theorem foldl_push_eq {α β : Type} (p : α → Bool) (g : α → β) (l : List α) (acc : List β) :
    l.foldl (fun ls c => if p c then ls ++ [g c] else ls) acc
      = acc ++ (l.filter p).map g := by
  induction l generalizing acc with
  | nil => simp
  | cons a l ih =>
      rw [List.foldl_cons]
      by_cases hpa : p a
      · rw [if_pos hpa, ih, List.filter_cons_of_pos hpa, List.map_cons]
        simp
      · rw [if_neg hpa, ih, List.filter_cons_of_neg hpa]

theorem step4_eq (m : NodeMap) (capped : List ClaimRecord) :
    step4 m capped
      = (capped.filter (fun c => mapHas m ("claim-" ++ c.primaryKey)
          && mapHas m ("ph-" ++ c.properties.policyholderId))).map linkOf := by
  rw [step4, foldl_push_eq]
  rfl

theorem links_all {objects : List ClaimRecord} (h : objects ≠ []) :
    (buildGraphData (some objects)).2 = (cappedOf objects).map linkOf := by
  rw [buildGraphData_some h]
  show step4 (m3Of objects) (cappedOf objects) = (cappedOf objects).map linkOf
  rw [step4_eq]
  have hfilter : (cappedOf objects).filter (fun c => mapHas (m3Of objects) ("claim-" ++ c.primaryKey)
      && mapHas (m3Of objects) ("ph-" ++ c.properties.policyholderId)) = cappedOf objects := by
    refine List.filter_eq_self.2 ?_
    intro c hc
    rw [mapHas_m3_claimKey hc, mapHas_m3_phKey hc]
    rfl
  rw [hfilter]

/-! ## Node identifiers -/

theorem m3_id_eq_key {objects : List ClaimRecord} {p : String × ClaimNode}
    (hp : p ∈ m3Of objects) : p.2.id = p.1 := by
  rw [m3_decomp] at hp
  rcases List.mem_append.1 hp with hp | hp
  · rcases List.mem_append.1 hp with hp | hp
    · rcases mem_step1 hp with ⟨c, _, rfl⟩
      rfl
    · rcases mem_phEntries hp with ⟨phId, sample, _, rfl⟩
      rfl
  · simp only [agentEntries, List.mem_cons, List.mem_singleton] at hp
    rcases hp with rfl | rfl | rfl | h
    · rfl
    · rfl
    · rfl
    · cases h

theorem node_ids_eq_keys (objects : List ClaimRecord) :
    ((m3Of objects).map Prod.snd).map (fun n => n.id) = keys (m3Of objects) := by
  rw [List.map_map, keys]
  exact List.map_congr_left (fun p hp => m3_id_eq_key hp)

/-! ## Concrete sample records for witnesses and counterexamples -/

/-- A record with primary key `"A"` and policyholder `"P1"`. -/
def recDupA : ClaimRecord :=
  { primaryKey := "A"
    properties :=
      { claimId := "c1", claimAmount := some 1000, anomalyScore := some 80
        status := "open", policyholderId := "P1" } }

/-- A second record sharing primary key `"A"` but carrying different data. -/
def recDupB : ClaimRecord :=
  { primaryKey := "A"
    properties :=
      { claimId := "c2", claimAmount := some 500, anomalyScore := some 10
        status := "closed", policyholderId := "P2" } }

/-- A record with a fresh primary key `"B"` and policyholder `"P9"`. -/
def recSolo : ClaimRecord :=
  { primaryKey := "B"
    properties :=
      { claimId := "c3", claimAmount := some 2500, anomalyScore := some 55
        status := "open", policyholderId := "P9" } }

/-! ## Claim C1 -/

/-- C1 as stated is false: claim nodes live in a last-write-wins map keyed by
`"claim-" ++ primaryKey`, so two records sharing primary key `"A"` produce one
claim node, not `min 2 200 = 2`. -/
theorem C1_counterexample :
    countType (buildGraphData (some [recDupA, recDupB])).1 NodeType.claim
      ≠ min ([recDupA, recDupB].length) 200 := by
  decide

/-- C1 amended: for every input list, the number of `claim` nodes produced
equals the number of distinct `primaryKey` values among the first 200
records (which is `min (length, 200)` only when those keys are distinct). -/
theorem C1_claim_node_count (objects : List ClaimRecord) :
    countType (buildGraphData (some objects)).1 NodeType.claim
      = ((objects.take 200).map (fun c => c.primaryKey)).toFinset.card := by
  rcases objects with _ | ⟨a, t⟩
  · rfl
  · have h : a :: t ≠ [] := List.cons_ne_nil a t
    rw [countType_nodes h]
    have h1 : (step1 (cappedOf (a :: t))).countP (fun p => p.2.type == NodeType.claim)
        = (step1 (cappedOf (a :: t))).length := by
      refine countP_eq_length_of_all ?_
      intro p hp
      rw [beq_iff_eq]
      exact step1_entry_type hp
    have h2 : (phEntriesOf (a :: t)).countP (fun p => p.2.type == NodeType.claim) = 0 := by
      refine countP_eq_zero_of_none ?_
      intro p hp
      rw [beq_iff_eq, phEntries_entry_type hp]
      simp
    have h3 : agentEntries.countP (fun p => p.2.type == NodeType.claim) = 0 := by decide
    rw [h1, h2, h3, length_step1]
    simp [cappedOf]

/-! ## Claim C2 -/

/-- C2 as stated is false on the empty input: the builder short-circuits at
the `!claims?.objects?.length` guard (line 42) and returns no nodes at all,
so the empty list yields 0 agent nodes rather than 3. -/
theorem C2_counterexample :
    countType (buildGraphData (some ([] : List ClaimRecord))).1 NodeType.agent ≠ 3 := by
  decide

/-- C2 amended: for every *non-empty* input, exactly 3 agent nodes are
produced, with the fixed identifiers `agent-AGENT_0/1/2` present in the node
set; the empty (or absent) input instead short-circuits to an empty graph. -/
theorem C2_agent_nodes (objects : List ClaimRecord) (h : objects ≠ []) :
    countType (buildGraphData (some objects)).1 NodeType.agent = 3 ∧
    ∀ aid ∈ (["AGENT_0", "AGENT_1", "AGENT_2"] : List String),
      ("agent-" ++ aid) ∈ (buildGraphData (some objects)).1.map (fun n => n.id) := by
  constructor
  · rw [countType_nodes h]
    have h1 : (step1 (cappedOf objects)).countP (fun p => p.2.type == NodeType.agent) = 0 := by
      refine countP_eq_zero_of_none ?_
      intro p hp
      rw [beq_iff_eq, step1_entry_type hp]
      simp
    have h2 : (phEntriesOf objects).countP (fun p => p.2.type == NodeType.agent) = 0 := by
      refine countP_eq_zero_of_none ?_
      intro p hp
      rw [beq_iff_eq, phEntries_entry_type hp]
      simp
    have h3 : agentEntries.countP (fun p => p.2.type == NodeType.agent) = 3 := by decide
    rw [h1, h2, h3]
  · intro aid haid
    have hids : (buildGraphData (some objects)).1.map (fun n => n.id) = keys (m3Of objects) := by
      rw [buildGraphData_some h]
      exact node_ids_eq_keys objects
    rw [hids, m3_decomp, keys_append]
    refine List.mem_append.2 (Or.inr ?_)
    simp only [List.mem_cons, List.mem_singleton] at haid
    rcases haid with rfl | rfl | rfl | hfalse
    · simp [agentEntries, keys]
    · simp [agentEntries, keys]
    · simp [agentEntries, keys]
    · cases hfalse

/-- Witness for C2 at the one-record input `[recSolo]`. -/
theorem C2_agent_nodes_witness :
    countType (buildGraphData (some [recSolo])).1 NodeType.agent = 3 ∧
    ∀ aid ∈ (["AGENT_0", "AGENT_1", "AGENT_2"] : List String),
      ("agent-" ++ aid) ∈ (buildGraphData (some [recSolo])).1.map (fun n => n.id) :=
  C2_agent_nodes [recSolo] (List.cons_ne_nil recSolo [])

/-! ## Claim C3 -/

/-- C3: on an empty or absent claim list the builder returns empty node and
edge sets, the view renders the placeholder, and no simulation is created. -/
theorem C3_empty_input (claims : Option (List ClaimRecord))
    (h : claimsEmpty claims = true) :
    buildGraphData claims = ([], []) ∧
    renderView claims = ViewState.placeholder ∧
    ∀ svgPresent : Bool, simulationCreated svgPresent claims = false := by
  rcases claims with _ | objects
  · refine ⟨rfl, rfl, fun svgPresent => ?_⟩
    simp [simulationCreated, claimsEmpty]
  · rcases objects with _ | ⟨a, t⟩
    · refine ⟨rfl, ?_, fun svgPresent => ?_⟩
      · rfl
      · simp [simulationCreated, claimsEmpty]
    · exact absurd h (by simp [claimsEmpty])

/-- Witness for C3 at the absent (`none`) claims parameter. -/
theorem C3_empty_input_witness :
    buildGraphData none = ([], []) ∧
    renderView none = ViewState.placeholder ∧
    simulationCreated true none = false :=
  ⟨(C3_empty_input none rfl).1, (C3_empty_input none rfl).2.1,
    (C3_empty_input none rfl).2.2 true⟩

/-! ## Claim C4 -/

/-- C4: every edge the builder emits has both endpoint identifiers present in
the produced node set (edges are only pushed under `nodeMap.has` checks on
both endpoints; a failing check drops the edge instead). -/
theorem C4_edge_endpoints (claims : Option (List ClaimRecord)) (l : Link)
    (hl : l ∈ (buildGraphData claims).2) :
    l.source ∈ (buildGraphData claims).1.map (fun n => n.id) ∧
    l.target ∈ (buildGraphData claims).1.map (fun n => n.id) := by
  rcases claims with _ | objects
  · cases hl
  · rcases objects with _ | ⟨a, t⟩
    · cases hl
    · have h : a :: t ≠ [] := List.cons_ne_nil a t
      rw [links_all h] at hl
      rcases List.mem_map.1 hl with ⟨c, hc, rfl⟩
      have hids : (buildGraphData (some (a :: t))).1.map (fun n => n.id)
          = keys (m3Of (a :: t)) := by
        rw [buildGraphData_some h]
        exact node_ids_eq_keys (a :: t)
      rw [hids]
      exact ⟨mapHas_iff_mem.1 (mapHas_m3_claimKey hc),
        mapHas_iff_mem.1 (mapHas_m3_phKey hc)⟩

/-- Witness for C4: the single edge of the one-record input `[recSolo]`. -/
theorem C4_edge_endpoints_witness :
    linkOf recSolo ∈ (buildGraphData (some [recSolo])).2 ∧
    (linkOf recSolo).source ∈ (buildGraphData (some [recSolo])).1.map (fun n => n.id) ∧
    (linkOf recSolo).target ∈ (buildGraphData (some [recSolo])).1.map (fun n => n.id) :=
  ⟨by decide, (C4_edge_endpoints (some [recSolo]) (linkOf recSolo) (by decide)).1,
    (C4_edge_endpoints (some [recSolo]) (linkOf recSolo) (by decide)).2⟩

/-! ## Claim C5 -/

/-- C5: every emitted edge has kind `claim-policyholder`; the declared
`policyholder-agent` kind is never produced, so agent nodes stay
disconnected in every derived graph. -/
theorem C5_no_policyholder_agent_edges (claims : Option (List ClaimRecord)) (l : Link)
    (hl : l ∈ (buildGraphData claims).2) : l.type = LinkType.claimPolicyholder := by
  rcases claims with _ | objects
  · cases hl
  · rcases objects with _ | ⟨a, t⟩
    · cases hl
    · rw [links_all (List.cons_ne_nil a t)] at hl
      rcases List.mem_map.1 hl with ⟨c, _, rfl⟩
      rfl

/-- Witness for C5 at the single edge of the input `[recSolo]`. -/
theorem C5_no_policyholder_agent_edges_witness :
    linkOf recSolo ∈ (buildGraphData (some [recSolo])).2 ∧
    (linkOf recSolo).type = LinkType.claimPolicyholder :=
  ⟨by decide, C5_no_policyholder_agent_edges (some [recSolo]) (linkOf recSolo) (by decide)⟩

/-! ## Claim C10 -/

/-- C10: the endpoint-existence check of the link-building step always
succeeds — a claim node and a policyholder node exist for every capped
record — so the builder emits exactly one `claim-policyholder` edge per
record among the first 200, and the edge list has length
`min (length records) 200` even when duplicate primary keys collapse
claim nodes. -/
theorem C10_one_edge_per_record (objects : List ClaimRecord) :
    (buildGraphData (some objects)).2 = (objects.take 200).map linkOf ∧
    (buildGraphData (some objects)).2.length = min objects.length 200 := by
  rcases objects with _ | ⟨a, t⟩
  · exact ⟨rfl, rfl⟩
  · have h : a :: t ≠ [] := List.cons_ne_nil a t
    refine ⟨links_all h, ?_⟩
    rw [links_all h]
    show ((List.take 200 (a :: t)).map linkOf).length = min (a :: t).length 200
    rw [List.length_map, List.length_take, Nat.min_comm]

/-! ## Claim C8 -/

/-- C8: the number of policyholder nodes equals the number of distinct
`policyholderId` values among the first 200 records; each policyholder node
is keyed `"ph-" ++ policyholderId`, echoes the id as its display name, and
carries the fixed risk label `"High Risk"`. -/
theorem C8_policyholder_nodes (objects : List ClaimRecord) :
    countType (buildGraphData (some objects)).1 NodeType.policyholder
      = ((objects.take 200).map (fun c => c.properties.policyholderId)).toFinset.card ∧
    ∀ n ∈ (buildGraphData (some objects)).1, n.type = NodeType.policyholder →
      n.id = "ph-" ++ n.primaryKey ∧ n.policyholderId = some n.primaryKey ∧
      n.policyholderName = some n.primaryKey ∧ n.riskProfile = some "High Risk" := by
  rcases objects with _ | ⟨a, t⟩
  · exact ⟨rfl, fun n hn => absurd hn (by simp [buildGraphData])⟩
  · have h : a :: t ≠ [] := List.cons_ne_nil a t
    constructor
    · rw [countType_nodes h]
      have h1 : (step1 (cappedOf (a :: t))).countP
          (fun p => p.2.type == NodeType.policyholder) = 0 := by
        refine countP_eq_zero_of_none ?_
        intro p hp
        rw [beq_iff_eq, step1_entry_type hp]
        simp
      have h2 : (phEntriesOf (a :: t)).countP
          (fun p => p.2.type == NodeType.policyholder) = (phEntriesOf (a :: t)).length := by
        refine countP_eq_length_of_all ?_
        intro p hp
        rw [beq_iff_eq]
        exact phEntries_entry_type hp
      have h3 : agentEntries.countP (fun p => p.2.type == NodeType.policyholder) = 0 := by
        decide
      rw [h1, h2, h3, length_phEntriesOf, phIdsOf, length_jsSet_eq_card]
      simp [cappedOf]
    · intro n hn htype
      rw [nodes_decomp h] at hn
      rcases List.mem_map.1 hn with ⟨p, hp, rfl⟩
      rcases List.mem_append.1 hp with hp' | hp'
      · rcases List.mem_append.1 hp' with hp'' | hp''
        · rw [step1_entry_type hp''] at htype
          cases htype
        · rcases mem_phEntries hp'' with ⟨phId, sample, hfind, rfl⟩
          have hecho : sample.properties.policyholderId = phId := by
            simpa using List.find?_some hfind
          exact ⟨rfl, rfl, by simp [phNodeOf, hecho], rfl⟩
      · rw [agentEntries_entry_type hp'] at htype
        cases htype

/-- Witness for C8 at the one-record input `[recSolo]` and its policyholder
node. -/
theorem C8_policyholder_nodes_witness :
    countType (buildGraphData (some [recSolo])).1 NodeType.policyholder = 1 ∧
    (phNodeOf "P9" recSolo ∈ (buildGraphData (some [recSolo])).1 ∧
      (phNodeOf "P9" recSolo).id = "ph-" ++ (phNodeOf "P9" recSolo).primaryKey ∧
      (phNodeOf "P9" recSolo).policyholderId = some (phNodeOf "P9" recSolo).primaryKey ∧
      (phNodeOf "P9" recSolo).policyholderName = some (phNodeOf "P9" recSolo).primaryKey ∧
      (phNodeOf "P9" recSolo).riskProfile = some "High Risk") :=
  ⟨((C8_policyholder_nodes [recSolo]).1).trans (by decide),
    by decide,
    (C8_policyholder_nodes [recSolo]).2 (phNodeOf "P9" recSolo) (by decide) rfl⟩

/-! ## Claim C6 -/

/-- C6: the claim-node color buckets use strict comparisons at 70 and 40 on
the zero-defaulted anomaly score. -/
theorem C6_color_thresholds (d : ClaimNode) (h : d.type = NodeType.claim) :
    (nodeColor d = "#ff4444" ↔ 70 < d.anomalyScore.getD 0) ∧
    (nodeColor d = "#ffaa00" ↔ 40 < d.anomalyScore.getD 0 ∧ d.anomalyScore.getD 0 ≤ 70) ∧
    (nodeColor d = "#88cc88" ↔ d.anomalyScore.getD 0 ≤ 40) := by
  have hcolor : nodeColor d
      = if 70 < d.anomalyScore.getD 0 then "#ff4444"
        else if 40 < d.anomalyScore.getD 0 then "#ffaa00" else "#88cc88" := by
    unfold nodeColor
    rw [h]
  rw [hcolor]
  by_cases h70 : 70 < d.anomalyScore.getD 0
  · rw [if_pos h70]
    refine ⟨⟨fun _ => h70, fun _ => rfl⟩, ⟨?_, ?_⟩, ⟨?_, ?_⟩⟩
    · intro hc
      exact absurd hc (by decide)
    · rintro ⟨_, hle⟩
      exact absurd h70 (not_lt.2 hle)
    · intro hc
      exact absurd hc (by decide)
    · intro hle
      exact absurd h70 (not_lt.2 (hle.trans (by norm_num)))
  · rw [if_neg h70]
    by_cases h40 : 40 < d.anomalyScore.getD 0
    · rw [if_pos h40]
      refine ⟨⟨?_, ?_⟩, ⟨fun _ => ⟨h40, le_of_not_lt h70⟩, fun _ => rfl⟩, ⟨?_, ?_⟩⟩
      · intro hc
        exact absurd hc (by decide)
      · intro hlt
        exact absurd hlt h70
      · intro hc
        exact absurd hc (by decide)
      · intro hle
        exact absurd h40 (not_lt.2 hle)
    · rw [if_neg h40]
      refine ⟨⟨?_, ?_⟩, ⟨?_, ?_⟩, ⟨fun _ => le_of_not_lt h40, fun _ => rfl⟩⟩
      · intro hc
        exact absurd hc (by decide)
      · intro hlt
        exact absurd hlt h70
      · intro hc
        exact absurd hc (by decide)
      · rintro ⟨h40', _⟩
        exact absurd h40' h40

/-- A claim node carrying only an anomaly score, for exercising the color map. -/
def mkScore (s : ℚ) : ClaimNode :=
  { id := "claim-T", type := .claim, primaryKey := "T", anomalyScore := some s }

/-- Witness for C6 at the five scores named by the claim: 75, 50, 10, and the
boundary values 70 and 40. -/
theorem C6_color_thresholds_witness :
    nodeColor (mkScore 75) = "#ff4444" ∧ nodeColor (mkScore 50) = "#ffaa00" ∧
    nodeColor (mkScore 10) = "#88cc88" ∧ nodeColor (mkScore 70) = "#ffaa00" ∧
    nodeColor (mkScore 40) = "#88cc88" :=
  ⟨(C6_color_thresholds (mkScore 75) rfl).1.mpr (by decide),
   (C6_color_thresholds (mkScore 50) rfl).2.1.mpr (by decide),
   (C6_color_thresholds (mkScore 10) rfl).2.2.mpr (by decide),
   (C6_color_thresholds (mkScore 70) rfl).2.1.mpr (by decide),
   (C6_color_thresholds (mkScore 40) rfl).2.2.mpr (by decide)⟩

/-! ## Claim C7 -/

/-- C7: clicking a claim node fires `flagSuspicious` exactly once with the
node's primary key (when wired), clicking an agent node fires
`investigateCluster` exactly once with the node's agent id (when wired),
clicking a policyholder node fires neither, and an unwired callback makes
the click a no-op. -/
theorem C7_click_dispatch (flagWired investigateWired : Bool) (d : ClaimNode) :
    (d.type = NodeType.claim →
      handleNodeClick flagWired investigateWired d
        = if flagWired then [WidgetEvent.flagSuspicious d.primaryKey] else []) ∧
    (d.type = NodeType.agent →
      handleNodeClick flagWired investigateWired d
        = if investigateWired then [WidgetEvent.investigateCluster d.agentId] else []) ∧
    (d.type = NodeType.policyholder →
      handleNodeClick flagWired investigateWired d = []) := by
  refine ⟨fun h => ?_, fun h => ?_, fun h => ?_⟩ <;>
    cases flagWired <;> cases investigateWired <;> simp [handleNodeClick, h]

/-- Nodes of each kind for exercising the click dispatcher. -/
def clickClaimNode : ClaimNode :=
  { id := "claim-A", type := .claim, primaryKey := "A" }

/-- An agent node for exercising the click dispatcher. -/
def clickAgentNode : ClaimNode :=
  { id := "agent-AGENT_0", type := .agent, primaryKey := "AGENT_0", agentId := some "AGENT_0" }

/-- A policyholder node for exercising the click dispatcher. -/
def clickPhNode : ClaimNode :=
  { id := "ph-P1", type := .policyholder, primaryKey := "P1" }

/-- Witness for C7: wired callbacks fire once with the right payload; unwired
callbacks make the click a no-op. -/
theorem C7_click_dispatch_witness :
    handleNodeClick true true clickClaimNode = [WidgetEvent.flagSuspicious "A"] ∧
    handleNodeClick true true clickAgentNode
      = [WidgetEvent.investigateCluster (some "AGENT_0")] ∧
    handleNodeClick true true clickPhNode = [] ∧
    handleNodeClick false false clickClaimNode = [] ∧
    handleNodeClick false false clickAgentNode = [] :=
  ⟨((C7_click_dispatch true true clickClaimNode).1 rfl).trans (by decide),
   ((C7_click_dispatch true true clickAgentNode).2.1 rfl).trans (by decide),
   (C7_click_dispatch true true clickPhNode).2.2 rfl,
   ((C7_click_dispatch false false clickClaimNode).1 rfl).trans (by decide),
   ((C7_click_dispatch false false clickAgentNode).2.1 rfl).trans (by decide)⟩

/-! ## Claim C9 -/

/-- A claim node carrying only a claim amount, for exercising the radius map. -/
def claimNodeWithAmount (a : Option ℚ) : ClaimNode :=
  { id := "claim-W", type := .claim, primaryKey := "W", claimAmount := a }

/-- C9's NaN clause is false: when `claimAmount` is absent the `|| 0` default
is applied *before* the square root, so the radius is the well-defined real
number 3 (`Math.sqrt(0)*4 + 3`), never NaN. -/
theorem C9_counterexample :
    nodeRadius (claimNodeWithAmount none) = some 3 ∧
    nodeRadius (claimNodeWithAmount none) ≠ none := by
  have h : nodeRadius (claimNodeWithAmount none) = some 3 := by
    simp [nodeRadius, claimNodeWithAmount, jsSqrt]
  exact ⟨h, by rw [h]; simp⟩

/-- C9 amended: claim-node radius is strictly monotone in a (nonnegative)
claim amount, policyholder and agent radii are the constants 8 and 12, and
an absent `claimAmount` falls back via the zero default to the radius 3
(not NaN). -/
theorem C9_node_radius :
    (∀ a b : ℚ, 0 ≤ a → a < b →
      ∃ r1 r2 : ℝ, nodeRadius (claimNodeWithAmount (some a)) = some r1 ∧
        nodeRadius (claimNodeWithAmount (some b)) = some r2 ∧ r1 < r2) ∧
    (∀ d : ClaimNode, d.type = NodeType.policyholder → nodeRadius d = some 8) ∧
    (∀ d : ClaimNode, d.type = NodeType.agent → nodeRadius d = some 12) ∧
    (∀ d : ClaimNode, d.type = NodeType.claim → d.claimAmount = none →
      nodeRadius d = some 3) := by
  refine ⟨?_, ?_, ?_, ?_⟩
  · intro a b ha hab
    have hb : (0 : ℚ) ≤ b := le_of_lt (lt_of_le_of_lt ha hab)
    have ha' : (0 : ℝ) ≤ ((a : ℚ) : ℝ) / 5000 := by positivity
    have hb' : (0 : ℝ) ≤ ((b : ℚ) : ℝ) / 5000 := by positivity
    refine ⟨Real.sqrt (((a : ℚ) : ℝ) / 5000) * 4 + 3,
      Real.sqrt (((b : ℚ) : ℝ) / 5000) * 4 + 3, ?_, ?_, ?_⟩
    · simp [nodeRadius, claimNodeWithAmount, jsSqrt, not_lt.2 ha']
    · simp [nodeRadius, claimNodeWithAmount, jsSqrt, not_lt.2 hb']
    · have hdiv : ((a : ℚ) : ℝ) / 5000 < ((b : ℚ) : ℝ) / 5000 := by
        have hcast : ((a : ℚ) : ℝ) < ((b : ℚ) : ℝ) := by exact_mod_cast hab
        linarith
      have hsqrt := Real.sqrt_lt_sqrt ha' hdiv
      linarith
  · intro d h
    simp [nodeRadius, h]
  · intro d h
    simp [nodeRadius, h]
  · intro d h hnone
    simp [nodeRadius, h, hnone, jsSqrt]

/-- Witness for C9 at the amounts 0 and 5000 and concrete fixed-radius nodes. -/
theorem C9_node_radius_witness :
    (∃ r1 r2 : ℝ, nodeRadius (claimNodeWithAmount (some 0)) = some r1 ∧
      nodeRadius (claimNodeWithAmount (some 5000)) = some r2 ∧ r1 < r2) ∧
    nodeRadius { id := "ph-P1", type := NodeType.policyholder, primaryKey := "P1" } = some 8 ∧
    nodeRadius { id := "agent-AGENT_0", type := NodeType.agent, primaryKey := "AGENT_0" }
      = some 12 ∧
    nodeRadius (claimNodeWithAmount none) = some 3 :=
  ⟨C9_node_radius.1 0 5000 le_rfl (by norm_num),
   C9_node_radius.2.1 _ rfl,
   C9_node_radius.2.2.1 _ rfl,
   C9_node_radius.2.2.2 _ rfl rfl⟩

end FraudNetwork
